import Mathlib

/-!
Verification of the NodeFz scheduler core (deps/uv/src/scheduler.h) and the
stream teardown path (deps/uv/src/unix/stream.c).

The declarations in scheduler.h are embedded directly.  Where only the
declaration of a routine is present in the repository (scheduler.c and the
backend implementations are not part of the sources), the behaviour is
modelled from the specification; such definitions carry a doc comment
beginning `Modelled from the spec:`.
-/

/-- The schedule points of `enum schedule_point_e` (scheduler.h, lines 138-171).
The MIN/MAX members are aliases of the first and last true member and are not
modelled separately. -/
inductive schedule_point_t
  | before_exec_cb
  | after_exec_cb
  | looper_before_epoll
  | looper_after_epoll
  | looper_iopoll_before_handling_events
  | looper_getting_done
  | looper_run_closing
  | timer_ready
  | timer_run
  | timer_next_timeout
  | tp_wants_work
  | tp_getting_work
  | tp_got_work
  | tp_before_put_done
  | tp_after_put_done
  deriving DecidableEq, Fintype

/-- The distinct C struct types that underlie the SPD typedefs of scheduler.h.
Each constructor is one `struct spd_X_s`.  The typedefs
`spd_after_exec_cb_t`, `spd_before_put_done_t`, `spd_after_put_done_t` and
`spd_getting_done_t` introduce no new struct: they are aliases
(scheduler.h lines 204-205, 284-295, 297-298). -/
inductive spd_struct
  | before_exec_cb_s
  | before_epoll_s
  | after_epoll_s
  | iopoll_before_handling_events_s
  | wants_work_s
  | getting_work_s
  | got_work_s
  | looper_run_closing_s
  | timer_ready_s
  | timer_run_s
  | timer_next_timeout_s
  deriving DecidableEq, Fintype

/-- The association of each schedule point with the C struct type of its
Schedule Point Details, following the `spd_X_t` typedefs of scheduler.h.
Shared structures: BEFORE/AFTER_EXEC_CB both use `struct spd_before_exec_cb_s`;
TP_GOT_WORK and TP_{BEFORE,AFTER}_PUT_DONE all use `struct spd_got_work_s`;
TP_GETTING_WORK and LOOPER_GETTING_DONE both use `struct spd_getting_work_s`. -/
def spdOf : schedule_point_t → spd_struct
  | .before_exec_cb => .before_exec_cb_s
  | .after_exec_cb => .before_exec_cb_s
  | .looper_before_epoll => .before_epoll_s
  | .looper_after_epoll => .after_epoll_s
  | .looper_iopoll_before_handling_events => .iopoll_before_handling_events_s
  | .looper_getting_done => .getting_work_s
  | .looper_run_closing => .looper_run_closing_s
  | .timer_ready => .timer_ready_s
  | .timer_run => .timer_run_s
  | .timer_next_timeout => .timer_next_timeout_s
  | .tp_wants_work => .wants_work_s
  | .tp_getting_work => .getting_work_s
  | .tp_got_work => .got_work_s
  | .tp_before_put_done => .got_work_s
  | .tp_after_put_done => .got_work_s

/-- Partition of the schedule points into groups sharing one SPD struct type:
two points receive the same group number exactly when scheduler.h declares
their SPD types via a shared struct (the typedef aliases). -/
def spd_typedef_group : schedule_point_t → Nat
  | .before_exec_cb => 0
  | .after_exec_cb => 0
  | .looper_before_epoll => 1
  | .looper_after_epoll => 2
  | .looper_iopoll_before_handling_events => 3
  | .looper_getting_done => 4
  | .looper_run_closing => 5
  | .timer_ready => 6
  | .timer_run => 7
  | .timer_next_timeout => 8
  | .tp_wants_work => 9
  | .tp_getting_work => 4
  | .tp_got_work => 10
  | .tp_before_put_done => 10
  | .tp_after_put_done => 10

/-- The scheduler backend dispatch table `struct schedulerImpl_s`
(scheduler.h, lines 486-494): one field per function-valued slot. -/
structure schedulerImpl_s (α : Type) where
  register_lcbn : α
  next_lcbn_type : α
  thread_yield : α
  emit : α
  lcbns_remaining : α
  schedule_has_diverged : α

/-- The names of the function-valued slots of `struct schedulerImpl_s`, in
declaration order (scheduler.h, lines 488-493). -/
def schedulerImplSlots : List String :=
  ["register_lcbn", "next_lcbn_type", "thread_yield", "emit",
   "lcbns_remaining", "schedule_has_diverged"]

/-- Field access on `schedulerImpl_s` by slot name; `none` for an unknown
name. -/
def schedulerImpl_lookup {α : Type} (impl : schedulerImpl_s α) : String → Option α
  | "register_lcbn" => some impl.register_lcbn
  | "next_lcbn_type" => some impl.next_lcbn_type
  | "thread_yield" => some impl.thread_yield
  | "emit" => some impl.emit
  | "lcbns_remaining" => some impl.lcbns_remaining
  | "schedule_has_diverged" => some impl.schedule_has_diverged
  | _ => none

/-- The work-queue model for `spd_getting_work_s` (scheduler.h, lines 260-266):
`magic` sentinel, an input pointer to a locked non-empty queue (modelled as the
list of work-item identifiers), and the output `index`, where a choice of 0
means treat the queue as FIFO. -/
structure spd_getting_work_t where
  magic : Int
  wq : List Nat
  index : Int
  deriving DecidableEq

/-- `typedef spd_getting_work_t spd_getting_done_t` (scheduler.h, line 298):
the LOOPER_GETTING_DONE payload is the very same type. -/
def spd_getting_done_t := spd_getting_work_t

/-- The scheduler types of `enum scheduler_type_e` (scheduler.h, lines 97-107). -/
inductive scheduler_type_t
  | vanilla
  | cbtree
  | fuzzing_time
  | tp_freedom
  deriving DecidableEq

/-- The scheduler modes of `enum scheduler_mode_e` (scheduler.h, lines 112-120). -/
inductive scheduler_mode_t
  | record
  | replay
  deriving DecidableEq

/-- Modelled from the spec: `enum callback_type` lives in
unified-callback-enums.h, which is not among the sources; only the members the
scheduler core distinguishes are modelled, including the wildcard sentinel
`CALLBACK_TYPE_ANY` that `scheduler_next_lcbn_type` returns after
divergence. -/
inductive callback_type
  | uv_connect_cb
  | uv_shutdown_cb
  | uv_write_cb
  | uv_timer_cb
  | any
  deriving DecidableEq

/-- Modelled from the spec: the state of the record/replay engine of
scheduler.c (not among the sources).  `mode` may shift from REPLAY to RECORD
on divergence; `init_mode` remembers the mode given to `scheduler_init`;
`remaining` is the unconsumed suffix of the input schedule (kinds of scheduled
LCBNs); `consumed` is the length of the schedule prefix already consumed;
`n_executed` counts the yields at SCHEDULE_POINT_AFTER_EXEC_CB;
`min_n_executed_before_divergence_allowed` is the divergence threshold of
§4.6. -/
structure SchedState where
  mode : scheduler_mode_t
  init_mode : scheduler_mode_t
  schedule_file : String
  remaining : List callback_type
  n_executed : Nat
  consumed : Nat
  diverged : Bool
  min_n_executed_before_divergence_allowed : Nat
  deriving DecidableEq

/-- Modelled from the spec: the state created by `scheduler_init` in REPLAY
mode with the given schedule file and loaded schedule. -/
def replay_init (file : String) (sched : List callback_type) (min_n : Nat) :
    SchedState :=
  { mode := .replay
    init_mode := .replay
    schedule_file := file
    remaining := sched
    n_executed := 0
    consumed := 0
    diverged := false
    min_n_executed_before_divergence_allowed := min_n }

/-- Modelled from the spec: `scheduler_check_lcbn_for_divergence`
(declared at scheduler.h line 630, implementation not among the sources).
In REPLAY mode, when divergence is detected: below the threshold
`min_n_executed_before_divergence_allowed` the divergence is fatal (`none`,
the process aborts); at or above it, the mode silently flips to RECORD. -/
def scheduler_check_lcbn_for_divergence (st : SchedState)
    (divergence_detected : Bool) : Option SchedState :=
  if st.mode = .replay then
    if divergence_detected then
      if st.n_executed < st.min_n_executed_before_divergence_allowed then
        none
      else
        some { st with mode := .record, diverged := true }
    else some st
  else some st

/-- Modelled from the spec: the file `scheduler_emit` writes to
(scheduler.h lines 421-426): the configured schedule file, with a `-replay`
suffix when the scheduler was initialised in REPLAY mode so that the input
schedule is not overwritten. -/
def scheduler_emit_target (st : SchedState) : String :=
  if st.init_mode = .replay then st.schedule_file ++ "-replay"
  else st.schedule_file

/-- Modelled from the spec: `scheduler_next_lcbn_type` (scheduler.h lines
387-392): in REPLAY mode, returns the callback type of the next scheduled
LCBN; once the scheduler has declared divergence it returns the wildcard
CALLBACK_TYPE_ANY (also used conservatively when the schedule is
exhausted). -/
def scheduler_next_lcbn_type (st : SchedState) : callback_type :=
  if st.diverged then .any
  else
    match st.remaining with
    | [] => .any
    | k :: _ => k

/-- The events the modelled record/replay engine reacts to: a yield at
SCHEDULE_POINT_AFTER_EXEC_CB, any other yield, and a divergence check with
its outcome. -/
inductive sched_event
  | yield_after_exec_cb
  | yield_other
  | check_divergence (detected : Bool)
  deriving DecidableEq

/-- Modelled from the spec: one step of the record/replay engine.  A yield at
AFTER_EXEC_CB increments `n_executed` (scheduler.h lines 438-441: n_executed
is measured by the number of such yields) and, in REPLAY mode, consumes one
entry of the schedule; a divergence check applies the policy of §4.6
(`none` models the fatal abort). -/
def sched_step (st : SchedState) : sched_event → Option SchedState
  | .yield_after_exec_cb =>
    some { st with
      n_executed := st.n_executed + 1
      consumed := if st.mode = .replay then st.consumed + 1 else st.consumed
      remaining := if st.mode = .replay then st.remaining.tail else st.remaining }
  | .yield_other => some st
  | .check_divergence detected => scheduler_check_lcbn_for_divergence st detected

/-- Modelled from the spec: run the record/replay engine over a sequence of
events; `none` when a fatal divergence aborts the run. -/
def sched_run : SchedState → List sched_event → Option SchedState
  | st, [] => some st
  | st, e :: es =>
    match sched_step st e with
    | none => none
    | some st2 => sched_run st2 es

/-- A file system modelled as an association list from file names to
contents. -/
abbrev fs_t := List (String × String)

/-- Look a file up by name. -/
def fs_lookup : fs_t → String → Option String
  | [], _ => none
  | (k2, v) :: rest, k => if k2 = k then some v else fs_lookup rest k

/-- Remove a file. -/
def fs_remove : fs_t → String → fs_t
  | [], _ => []
  | (k2, v) :: rest, k =>
    if k2 = k then fs_remove rest k else (k2, v) :: fs_remove rest k

/-- Create or overwrite a file. -/
def fs_set (fs : fs_t) (k : String) (v : String) : fs_t :=
  (k, v) :: fs_remove fs k

/-- Modelled from the spec: the emit write path of scheduler.c (not among the
sources).  The log text is written to `<target>.tmp` and then atomically
renamed onto `target`; `io_ok = false` models an I/O error during the write,
after which the temporary file is removed and the target is untouched.  The
Bool result records whether the write succeeded. -/
def emit_write (fs : fs_t) (target : String) (content : String)
    (io_ok : Bool) : fs_t × Bool :=
  if io_ok then
    let tmp_written := fs_set fs (target ++ ".tmp") content
    (fs_set (fs_remove tmp_written (target ++ ".tmp")) target content, true)
  else
    (fs_remove fs (target ++ ".tmp"), false)

/-- Modelled from the spec: the public facade `scheduler_emit`
(scheduler.h lines 421-426).  Its C declaration is
`void scheduler_emit (void)`: the value returned to the caller is of unit
type, mirroring the `void` return, whatever happened to the file system. -/
def scheduler_emit (st : SchedState) (fs : fs_t) (content : String)
    (io_ok : Bool) : fs_t × Unit :=
  ((emit_write fs (scheduler_emit_target st) content io_ok).1, ())

/-- Modelled from the spec: the index a backend writes into
`spd_getting_work_t.index` at SCHEDULE_POINT_TP_GETTING_WORK (backend
implementations are not among the sources).  Vanilla and FuzzingTime write the
identity choice 0 (FIFO); TPFreedom may return any valid index, drawn from its
seeded pseudo-random source `rand`; CBTree picks the index of the queue item
whose resulting LCBN is next in the schedule (`next_item`). -/
def backend_getting_work_index (ty : scheduler_type_t) (rand : Nat)
    (next_item : Nat) (wq : List Nat) : Nat :=
  match ty with
  | .vanilla => 0
  | .fuzzing_time => 0
  | .tp_freedom => rand % wq.length
  | .cbtree => wq.findIdx (fun x => x == next_item)

/-- Modelled from the spec: the outputs a backend writes at
SCHEDULE_POINT_LOOPER_IOPOLL_BEFORE_HANDLING_EVENTS (backend implementations
are not among the sources).  The result is the possibly reordered `items`
array and the per-item `thoughts` array (1 = handle, 0 = defer).  Vanilla,
FuzzingTime and TPFreedom handle all events in order; CBTree moves the event
whose resulting LCBN is next in the schedule to the front and handles only it,
or defers every event when no item matches, forcing the loop to re-poll. -/
def backend_iopoll_events (ty : scheduler_type_t) (next_item : Nat)
    (items : List Nat) : List Nat × List Nat :=
  match ty with
  | .cbtree =>
    match items.partition (fun x => x == next_item) with
    | ([], _) => (items, items.map (fun _ => 0))
    | (m :: ms, rest) => (m :: (ms ++ rest), 1 :: (ms ++ rest).map (fun _ => 0))
  | _ => (items, items.map (fun _ => 1))

/-- Modelled from the spec: the reentrant core lock of scheduler.c (declared
as `scheduler__lock`/`scheduler__unlock` at scheduler.h lines 454-455,
implementation not among the sources): a mutex with owner tracking and a
recursion depth. -/
structure core_lock_t where
  holder : Option Nat
  depth : Nat
  deriving DecidableEq

/-- Modelled from the spec: the lock-relevant state of the scheduler facade:
the reentrant core lock and the stack of threads currently inside a callback
(one entry per nested BEFORE_EXEC_CB yield not yet matched by its
AFTER_EXEC_CB yield). -/
structure sched_core_state where
  lock : core_lock_t
  cb_stack : List Nat
  deriving DecidableEq

/-- The scheduler facade's state before any thread has yielded. -/
def sched_core_init : sched_core_state :=
  { lock := { holder := none, depth := 0 }, cb_stack := [] }

/-- Modelled from the spec: the transitions of `scheduler_thread_yield`
(scheduler.h lines 394-406) as they affect the core lock.  A yield at
BEFORE_EXEC_CB acquires the reentrant lock (free, or already held by the
calling thread when callbacks nest) and keeps holding it through the
callback; the matching yield at AFTER_EXEC_CB releases one level.  Every
other yield acquires and releases the lock around the backend callout,
leaving the state unchanged. -/
inductive sched_core_step : sched_core_state → sched_core_state → Prop
  | yield_before_exec_cb (t : Nat) (s : sched_core_state)
      (hacq : s.lock.holder = none ∨ s.lock.holder = some t) :
      sched_core_step s
        { lock := { holder := some t, depth := s.lock.depth + 1 }
          cb_stack := t :: s.cb_stack }
  | yield_after_exec_cb (t : Nat) (s : sched_core_state) (rest : List Nat)
      (hhold : s.lock.holder = some t)
      (hstk : s.cb_stack = t :: rest) :
      sched_core_step s
        { lock := { holder := if s.lock.depth ≤ 1 then none else some t
                    depth := s.lock.depth - 1 }
          cb_stack := rest }
  | yield_non_cb (t : Nat) (s : sched_core_state)
      (hacq : s.lock.holder = none ∨ s.lock.holder = some t) :
      sched_core_step s s

/-- The facade states reachable from the initial state by yields. -/
inductive sched_core_reachable : sched_core_state → Prop
  | init : sched_core_reachable sched_core_init
  | step {s s2 : sched_core_state} : sched_core_reachable s →
      sched_core_step s s2 → sched_core_reachable s2

/-- The inductive invariant of the core lock: every thread inside a callback
holds the lock, the callback nesting never exceeds the lock depth, and a free
lock has depth zero. -/
def core_inv (s : sched_core_state) : Prop :=
  (∀ t, t ∈ s.cb_stack → s.lock.holder = some t) ∧
  s.cb_stack.length ≤ s.lock.depth ∧
  (s.lock.holder = none → s.lock.depth = 0)

/-- `ECANCELED` of errno.h; stream.c completes cancelled requests with the
status `-ECANCELED`. -/
def ECANCELED : Int := 125

/-- A `uv_write_t` as uv__stream_destroy sees it: an identifier standing for
the request's address, the `bufs` array (`none` models `bufs == NULL`, the
list holds the byte length of each buffer), the index of the first unwritten
buffer, the stored `error`, and whether a callback `cb` was supplied. -/
structure uv_write_t where
  id : Nat
  bufs : Option (List Nat)
  write_index : Nat
  error : Int
  cb : Bool
  deriving DecidableEq

/-- The fields of a `uv_stream_t` that uv__stream_destroy touches: the
pending connect and shutdown requests (by identifier), the write queue, the
write-completed queue, and `write_queue_size`. -/
structure uv_stream_t where
  connect_req : Option Nat
  shutdown_req : Option Nat
  write_queue : List uv_write_t
  write_completed_queue : List uv_write_t
  write_queue_size : Nat
  deriving DecidableEq

/-- One callback invocation routed through `invoke_callback_wrap`, tagged with
the callback type constant the stream code passes (UV_CONNECT_CB,
UV_SHUTDOWN_CB, UV_WRITE_CB) together with the request and status arguments. -/
inductive cb_event
  | connect_cb (req_id : Nat) (status : Int)
  | shutdown_cb (req_id : Nat) (status : Int)
  | write_cb (req_id : Nat) (status : Int)
  deriving DecidableEq

/-- `uv__write_req_size` (stream.c lines 776-785): the byte count of the
request's still-unwritten buffers. -/
def uv__write_req_size (r : uv_write_t) : Nat :=
  match r.bufs with
  | some bufs => (bufs.drop r.write_index).sum
  | none => 0

/-- `uv__stream_flush_write_queue` (stream.c lines 456-468): every request of
`write_queue` has its `error` set and is moved, in order, to the tail of
`write_completed_queue`. -/
def uv__stream_flush_write_queue (s : uv_stream_t) (error : Int) : uv_stream_t :=
  { s with
    write_queue := []
    write_completed_queue :=
      s.write_completed_queue ++
        s.write_queue.map (fun r => { r with error := error }) }

/-- The loop of `uv__write_callbacks` (stream.c lines 1028-1051): each request
popped off the completed queue releases its buffers (decrementing
`write_queue_size` by `uv__write_req_size` when `bufs` is non-NULL) and then
has its callback invoked with the stored `error`, when a callback was
supplied.  Returns the final `write_queue_size` and the invoked callbacks in
order. -/
def write_callbacks_loop : List uv_write_t → Nat → Nat × List cb_event
  | [], wqs => (wqs, [])
  | r :: rs, wqs =>
    let wqs2 := if r.bufs.isSome then wqs - uv__write_req_size r else wqs
    let rec_result := write_callbacks_loop rs wqs2
    (rec_result.1,
      (if r.cb then [cb_event.write_cb r.id r.error] else []) ++ rec_result.2)

/-- `uv__write_callbacks` (stream.c lines 1021-1054): drains
`write_completed_queue`, returning the updated stream and the callback
invocations. -/
def uv__write_callbacks (s : uv_stream_t) : uv_stream_t × List cb_event :=
  let looped := write_callbacks_loop s.write_completed_queue s.write_queue_size
  ({ s with write_completed_queue := [], write_queue_size := looped.1 },
   looped.2)

/-- `uv__stream_destroy` (stream.c lines 471-509): invoke and clear the
pending connect request with -ECANCELED, flush the write queue with
-ECANCELED and run the write callbacks, then invoke and clear the pending
shutdown request with -ECANCELED.  Returns the final stream state and the
callback invocations in order. -/
def uv__stream_destroy (s : uv_stream_t) : uv_stream_t × List cb_event :=
  let conn_events : List cb_event :=
    match s.connect_req with
    | some r => [cb_event.connect_cb r (-ECANCELED)]
    | none => []
  let s1 : uv_stream_t := { s with connect_req := none }
  let s2 := uv__stream_flush_write_queue s1 (-ECANCELED)
  let wc := uv__write_callbacks s2
  let shut_events : List cb_event :=
    match wc.1.shutdown_req with
    | some r => [cb_event.shutdown_cb r (-ECANCELED)]
    | none => []
  ({ wc.1 with shutdown_req := none },
   conn_events ++ wc.2 ++ shut_events)

/-- The total unwritten byte count a list of write requests accounts for in
`write_queue_size` (only requests whose `bufs` is non-NULL contribute; see
the comment at stream.c lines 1551-1554). -/
def queue_size_sum (l : List uv_write_t) : Nat :=
  (l.map (fun r => if r.bufs.isSome then uv__write_req_size r else 0)).sum

/-- The unwritten bytes accounted in `write_queue_size`: those of the write
queue plus those of error-state requests still in the completed queue. -/
def stream_pending_size (s : uv_stream_t) : Nat :=
  queue_size_sum s.write_queue + queue_size_sum s.write_completed_queue

/-- A replay-mode scheduler state at the divergence threshold, for witnessing
the divergence policy. -/
def divergence_example : SchedState :=
  { mode := .replay
    init_mode := .replay
    schedule_file := "sched"
    remaining := [callback_type.uv_timer_cb]
    n_executed := 2
    consumed := 2
    diverged := false
    min_n_executed_before_divergence_allowed := 2 }

/-- A concrete event sequence with two AFTER_EXEC_CB yields. -/
def replay_events_example : List sched_event :=
  [sched_event.yield_after_exec_cb, sched_event.yield_other,
   sched_event.yield_after_exec_cb]

/-- The state `replay_events_example` drives a two-entry replay into. -/
def replay_state_example : SchedState :=
  { mode := .replay
    init_mode := .replay
    schedule_file := "f"
    remaining := []
    n_executed := 2
    consumed := 2
    diverged := false
    min_n_executed_before_divergence_allowed := 0 }

/-- A replay-mode state that has declared divergence. -/
def diverged_state_example : SchedState :=
  { mode := .record
    init_mode := .replay
    schedule_file := "f"
    remaining := [callback_type.uv_write_cb]
    n_executed := 3
    consumed := 3
    diverged := true
    min_n_executed_before_divergence_allowed := 0 }

/-- A non-diverged replay-mode state with a pending schedule entry. -/
def replay_pending_example : SchedState :=
  { mode := .replay
    init_mode := .replay
    schedule_file := "f"
    remaining := [callback_type.uv_timer_cb]
    n_executed := 0
    consumed := 0
    diverged := false
    min_n_executed_before_divergence_allowed := 0 }

/-- The facade state after one BEFORE_EXEC_CB yield by thread 0. -/
def core_state_example : sched_core_state :=
  { lock := { holder := some 0, depth := 1 }, cb_stack := [0] }

/-- A stream with a pending connect request, a pending shutdown request, and
one queued write request of five unwritten bytes. -/
def stream_example : uv_stream_t :=
  { connect_req := some 1
    shutdown_req := some 2
    write_queue :=
      [{ id := 3, bufs := some [5], write_index := 0, error := 0, cb := true }]
    write_completed_queue := []
    write_queue_size := 5 }

/-- C2 counterexample: the tag-to-SPD-struct mapping is not injective.
BEFORE_EXEC_CB and AFTER_EXEC_CB are distinct tags whose SPD payloads share
one struct type (`typedef spd_before_exec_cb_t spd_after_exec_cb_t`). -/
theorem spd_variant_not_injective :
    schedule_point_t.before_exec_cb ≠ schedule_point_t.after_exec_cb ∧
    spdOf schedule_point_t.before_exec_cb = spdOf schedule_point_t.after_exec_cb := by
  decide

/-- C2 (amended): the mapping from schedule-point tags to SPD struct types is
total, and two tags share an SPD struct type exactly when scheduler.h declares
them via a typedef alias of one struct (before/after exec-cb; got-work and
before/after put-done; getting-work and getting-done); on all other tags the
mapping is injective. -/
theorem spd_variant_total_injective_up_to_typedef :
    (∀ p : schedule_point_t, ∃ s : spd_struct, spdOf p = s) ∧
    (∀ p q : schedule_point_t,
      spdOf p = spdOf q ↔ spd_typedef_group p = spd_typedef_group q) := by
  decide

/-- C3 counterexample: the scheduler backend interface does not consist of
five function-valued slots. -/
theorem schedulerImpl_slots_not_five : ¬ (schedulerImplSlots.length = 5) := by
  decide

/-- C3 (amended): the scheduler backend interface `struct schedulerImpl_s`
consists of exactly six distinct function-valued slots — register_lcbn,
next_lcbn_type, thread_yield, emit, lcbns_remaining, schedule_has_diverged —
and every backend dispatch table supplies all of them. -/
theorem schedulerImpl_slots_six :
    schedulerImplSlots.length = 6 ∧ schedulerImplSlots.Nodup ∧
    ∀ (α : Type) (impl : schedulerImpl_s α),
      (schedulerImplSlots.map (fun n => schedulerImpl_lookup impl n)).all
        (fun o => o.isSome) = true := by
  refine ⟨by decide, by decide, ?_⟩
  intro α impl
  rfl

/-- C9: the LOOPER_GETTING_DONE schedule point carries the same payload shape
as TP_GETTING_WORK: the tag-to-struct mapping sends both points to
`struct spd_getting_work_s`, and `spd_getting_done_t` is definitionally the
type `spd_getting_work_t` (input locked non-empty queue, output integer index,
0 meaning FIFO), so the looper's done-queue pick is steered exactly like a
worker's work-queue pick. -/
theorem getting_done_shares_getting_work_shape :
    spdOf .looper_getting_done = spdOf .tp_getting_work ∧
    spdOf .looper_getting_done = .getting_work_s ∧
    spd_getting_done_t = spd_getting_work_t :=
  ⟨rfl, rfl, rfl⟩

theorem fs_lookup_remove_self (fs : fs_t) (k : String) :
    fs_lookup (fs_remove fs k) k = none := by
  induction fs with
  | nil => rfl
  | cons p rest ih =>
    obtain ⟨k2, v⟩ := p
    by_cases h : k2 = k
    · simp [fs_remove, h, ih]
    · simp [fs_remove, fs_lookup, h, ih]

theorem fs_lookup_remove_ne (fs : fs_t) (k2 k : String) (h : k2 ≠ k) :
    fs_lookup (fs_remove fs k2) k = fs_lookup fs k := by
  induction fs with
  | nil => rfl
  | cons p rest ih =>
    obtain ⟨ka, v⟩ := p
    by_cases hk : ka = k2
    · subst hk
      simp [fs_remove, fs_lookup, h, ih]
    · by_cases hkk : ka = k
      · subst hkk
        simp [fs_remove, fs_lookup, hk, ih]
      · simp [fs_remove, fs_lookup, hk, hkk, ih]

theorem fs_lookup_set_self (fs : fs_t) (k v : String) :
    fs_lookup (fs_set fs k v) k = some v := by
  simp [fs_set, fs_lookup]

theorem fs_lookup_set_ne (fs : fs_t) (k2 k v : String) (h : k2 ≠ k) :
    fs_lookup (fs_set fs k2 v) k = fs_lookup fs k := by
  simp [fs_set, fs_lookup, h, fs_lookup_remove_ne fs k2 k h]

theorem string_ne_append_tmp (s : String) : s ≠ s ++ ".tmp" := by
  intro h
  have hl := congrArg String.length h
  simp [String.length_append] at hl
  exact absurd hl (by decide)

theorem tmp_ne_string (s : String) : s ++ ".tmp" ≠ s :=
  fun h => string_ne_append_tmp s h.symm

/-- C4 counterexample: an I/O error during emit is not reported to the caller
of emit() as a return value.  `scheduler_emit` is declared
`void scheduler_emit (void)` (scheduler.h line 426), so the value returned on
a failed write is the very value returned on a successful one: the caller
cannot observe the error through it. -/
theorem emit_error_not_reported_by_return :
    (scheduler_emit (replay_init "sched" [] 0) [] "log" false).2 =
    (scheduler_emit (replay_init "sched" [] 0) [] "log" true).2 := rfl

/-- C4 (amended): emit() returns void, so an I/O error while writing the
schedule log is not reported to the caller as a return value; no partial
output file is left behind: the write goes to a temporary file followed by an
atomic rename, so on failure the target file is untouched and the temporary
is gone, and on success the target holds the full log with the temporary
gone. -/
theorem emit_error_no_partial_file (st : SchedState) (fs : fs_t)
    (content : String) :
    (scheduler_emit st fs content false).2 =
      (scheduler_emit st fs content true).2 ∧
    fs_lookup (scheduler_emit st fs content false).1 (scheduler_emit_target st) =
      fs_lookup fs (scheduler_emit_target st) ∧
    fs_lookup (scheduler_emit st fs content false).1
      (scheduler_emit_target st ++ ".tmp") = none ∧
    fs_lookup (scheduler_emit st fs content true).1 (scheduler_emit_target st) =
      some content ∧
    fs_lookup (scheduler_emit st fs content true).1
      (scheduler_emit_target st ++ ".tmp") = none := by
  refine ⟨rfl, ?_, ?_, ?_, ?_⟩
  · simp only [scheduler_emit, emit_write, if_neg Bool.false_ne_true]
    exact fs_lookup_remove_ne fs (scheduler_emit_target st ++ ".tmp")
      (scheduler_emit_target st) (tmp_ne_string _)
  · simp only [scheduler_emit, emit_write, if_neg Bool.false_ne_true]
    exact fs_lookup_remove_self fs (scheduler_emit_target st ++ ".tmp")
  · exact fs_lookup_set_self _ _ _
  · show fs_lookup
        (fs_set
          (fs_remove (fs_set fs (scheduler_emit_target st ++ ".tmp") content)
            (scheduler_emit_target st ++ ".tmp"))
          (scheduler_emit_target st) content)
        (scheduler_emit_target st ++ ".tmp") = none
    rw [fs_lookup_set_ne _ _ _ _ (string_ne_append_tmp _)]
    exact fs_lookup_remove_self _ _

/-- C5: in REPLAY mode, when divergence is detected: below the configured
threshold `min_n_executed_before_divergence_allowed` the divergence is fatal;
at or above it, the scheduler silently flips its mode to RECORD, and a
subsequent emit() targets the schedule file with `-replay` appended. -/
theorem divergence_threshold_policy (st : SchedState)
    (hmode : st.mode = .replay) (hinit : st.init_mode = .replay) :
    (st.n_executed < st.min_n_executed_before_divergence_allowed →
      scheduler_check_lcbn_for_divergence st true = none) ∧
    (st.min_n_executed_before_divergence_allowed ≤ st.n_executed →
      scheduler_check_lcbn_for_divergence st true =
        some { st with mode := .record, diverged := true } ∧
      scheduler_emit_target { st with mode := .record, diverged := true } =
        st.schedule_file ++ "-replay") := by
  constructor
  · intro hlt
    simp [scheduler_check_lcbn_for_divergence, hmode, hlt]
  · intro hge
    refine ⟨?_, ?_⟩
    · simp [scheduler_check_lcbn_for_divergence, hmode, Nat.not_lt.mpr hge]
    · simp [scheduler_emit_target, hinit]

/-- C5 witness: at the threshold, a detected divergence in the example replay
state flips the mode to RECORD and a later emit targets `sched-replay`. -/
theorem divergence_threshold_policy_witness :
    divergence_example.mode = .replay ∧
    (scheduler_check_lcbn_for_divergence divergence_example true =
        some { divergence_example with mode := .record, diverged := true } ∧
      scheduler_emit_target
          { divergence_example with mode := .record, diverged := true } =
        divergence_example.schedule_file ++ "-replay") :=
  ⟨rfl, (divergence_threshold_policy divergence_example rfl rfl).2 (by decide)⟩

/-- C8: in REPLAY mode, next_lcbn_type() returns the callback kind of the
next LCBN in the schedule; once the scheduler has declared divergence it
returns the wildcard sentinel CALLBACK_TYPE_ANY. -/
theorem next_lcbn_type_spec (st : SchedState) :
    (st.diverged = true → scheduler_next_lcbn_type st = .any) ∧
    (st.diverged = false → ∀ (k : callback_type) (rest : List callback_type),
      st.remaining = k :: rest → scheduler_next_lcbn_type st = k) := by
  constructor
  · intro h
    simp [scheduler_next_lcbn_type, h]
  · intro h k rest hr
    simp [scheduler_next_lcbn_type, h, hr]

/-- C8 witness: a diverged state yields the wildcard; a non-diverged state
with a timer callback next in the schedule yields that kind. -/
theorem next_lcbn_type_spec_witness :
    scheduler_next_lcbn_type diverged_state_example = callback_type.any ∧
    scheduler_next_lcbn_type replay_pending_example = callback_type.uv_timer_cb :=
  ⟨(next_lcbn_type_spec diverged_state_example).1 rfl,
   (next_lcbn_type_spec replay_pending_example).2 rfl
     callback_type.uv_timer_cb [] rfl⟩

theorem sched_step_diverged_mono (st : SchedState) (e : sched_event)
    (st2 : SchedState) (h : sched_step st e = some st2)
    (hd : st.diverged = true) : st2.diverged = true := by
  cases e with
  | yield_after_exec_cb =>
    simp only [sched_step, Option.some.injEq] at h
    rw [← h]
    exact hd
  | yield_other =>
    simp only [sched_step, Option.some.injEq] at h
    rw [← h]
    exact hd
  | check_divergence detected =>
    simp only [sched_step, scheduler_check_lcbn_for_divergence] at h
    split at h
    · split at h
      · split at h
        · exact absurd h (by simp)
        · simp only [Option.some.injEq] at h
          rw [← h]
      · simp only [Option.some.injEq] at h
        rw [← h]
        exact hd
    · simp only [Option.some.injEq] at h
      rw [← h]
      exact hd

theorem sched_run_diverged_mono (es : List sched_event) (st s : SchedState)
    (h : sched_run st es = some s) (hd : st.diverged = true) :
    s.diverged = true := by
  induction es generalizing st with
  | nil =>
    simp only [sched_run, Option.some.injEq] at h
    rw [← h]
    exact hd
  | cons e es ih =>
    simp only [sched_run] at h
    cases hstep : sched_step st e with
    | none => rw [hstep] at h; exact absurd h (by simp)
    | some st2 =>
      rw [hstep] at h
      exact ih st2 h (sched_step_diverged_mono st e st2 hstep hd)

theorem sched_run_counts (es : List sched_event) (st s : SchedState)
    (h : sched_run st es = some s) (hdiv : s.diverged = false)
    (hm : st.mode = .replay) (hd : st.diverged = false) :
    s.n_executed = st.n_executed + es.count sched_event.yield_after_exec_cb ∧
    s.consumed = st.consumed + es.count sched_event.yield_after_exec_cb := by
  induction es generalizing st with
  | nil =>
    simp only [sched_run, Option.some.injEq] at h
    rw [← h]
    simp
  | cons e es ih =>
    simp only [sched_run] at h
    cases e with
    | yield_after_exec_cb =>
      simp only [sched_step] at h
      have hstep :
          sched_run
            { st with
              n_executed := st.n_executed + 1
              consumed := if st.mode = .replay then st.consumed + 1
                          else st.consumed
              remaining := if st.mode = .replay then st.remaining.tail
                           else st.remaining } es = some s := h
      have := ih _ hstep hm hd
      rw [List.count_cons_self]
      constructor
      · rw [this.1]
        simp only
        omega
      · rw [this.2]
        simp only [if_pos hm]
        omega
    | yield_other =>
      simp only [sched_step] at h
      have := ih st h hm hd
      rw [List.count_cons_of_ne (by simp)]
      exact this
    | check_divergence detected =>
      simp only [sched_step, scheduler_check_lcbn_for_divergence,
        if_pos hm] at h
      cases detected with
      | true =>
        simp only [if_pos rfl] at h
        by_cases hlt :
            st.n_executed < st.min_n_executed_before_divergence_allowed
        · rw [if_pos hlt] at h
          exact absurd h (by simp)
        · rw [if_neg hlt] at h
          have : s.diverged = true :=
            sched_run_diverged_mono es _ s h rfl
          rw [this] at hdiv
          exact absurd hdiv (by simp)
      | false =>
        simp only [if_neg (by simp : ¬ (false = true))] at h
        have := ih st h hm hd
        rw [List.count_cons_of_ne (by simp)]
        exact this

/-- C6: in REPLAY mode, as long as divergence has not been declared,
n_executed() equals the number of AFTER_EXEC_CB yields observed so far and
equals the length of the prefix of the schedule already consumed. -/
theorem replay_n_executed_inv (file : String) (sched : List callback_type)
    (min_n : Nat) (events : List sched_event) (s : SchedState)
    (hrun : sched_run (replay_init file sched min_n) events = some s)
    (hdiv : s.diverged = false) :
    s.n_executed = events.count sched_event.yield_after_exec_cb ∧
    s.n_executed = s.consumed := by
  have h := sched_run_counts events (replay_init file sched min_n) s hrun hdiv
    rfl rfl
  simp only [replay_init, Nat.zero_add] at h
  exact ⟨h.1, by rw [h.1, h.2]⟩

/-- C6 witness: three events containing two AFTER_EXEC_CB yields drive a
two-entry replay to a state with n_executed = 2 = consumed. -/
theorem replay_n_executed_inv_witness :
    replay_state_example.n_executed =
      replay_events_example.count sched_event.yield_after_exec_cb ∧
    replay_state_example.n_executed = replay_state_example.consumed :=
  replay_n_executed_inv "f" [callback_type.uv_timer_cb, callback_type.uv_timer_cb]
    0 replay_events_example replay_state_example (by decide) rfl

/-- C7: for every thread_yield at TP_GETTING_WORK the index a backend writes
satisfies index < length of the (non-empty) work queue; and at
LOOPER_IOPOLL_BEFORE_HANDLING_EVENTS the thoughts array written has exactly
one entry per item and the items array after any reordering is a permutation
of the input items.  (CBTree reaches TP_GETTING_WORK only when the matching
item is present, per the TP_WANTS_WORK gate of §4.3.) -/
theorem backend_choice_validity (ty : scheduler_type_t) (rand next_item : Nat)
    (wq items : List Nat) (hwq : 0 < wq.length)
    (hmatch : ty = .cbtree → next_item ∈ wq) :
    backend_getting_work_index ty rand next_item wq < wq.length ∧
    ((backend_iopoll_events ty next_item items).1).Perm items ∧
    (backend_iopoll_events ty next_item items).2.length = items.length := by
  refine ⟨?_, ?_⟩
  · cases ty with
    | vanilla => simpa [backend_getting_work_index] using hwq
    | fuzzing_time => simpa [backend_getting_work_index] using hwq
    | tp_freedom => exact Nat.mod_lt _ hwq
    | cbtree =>
      exact List.findIdx_lt_length_of_exists ⟨next_item, hmatch rfl, by simp⟩
  · cases ty with
    | vanilla => exact ⟨List.Perm.refl _, by simp [backend_iopoll_events]⟩
    | fuzzing_time => exact ⟨List.Perm.refl _, by simp [backend_iopoll_events]⟩
    | tp_freedom => exact ⟨List.Perm.refl _, by simp [backend_iopoll_events]⟩
    | cbtree =>
      rcases hpe : items.partition (fun x => x == next_item) with ⟨fst, snd⟩
      have hpf := List.partition_eq_filter_filter (fun x => x == next_item) items
      rw [hpe] at hpf
      have hfst := congrArg Prod.fst hpf
      have hsnd := congrArg Prod.snd hpf
      simp only at hfst hsnd
      simp only [backend_iopoll_events]
      rw [hpe]
      cases fst with
      | nil => exact ⟨List.Perm.refl _, by simp⟩
      | cons m ms =>
        have hperm : List.Perm ((m :: ms) ++ snd) items := by
          rw [hfst, hsnd]
          exact List.filter_append_perm _ items
        have hlen := hperm.length_eq
        simp only [List.length_append, List.length_cons] at hlen
        refine ⟨?_, ?_⟩
        · simpa using hperm
        · simp only [List.length_cons, List.length_map, List.length_append]
          omega

/-- C7 witness: concrete CBTree choices on a two-item queue and a two-event
poll set. -/
theorem backend_choice_validity_witness :
    backend_getting_work_index .cbtree 0 2 [1, 2] < [1, 2].length ∧
    ((backend_iopoll_events .cbtree 2 [3, 2]).1).Perm [3, 2] ∧
    (backend_iopoll_events .cbtree 2 [3, 2]).2.length = [3, 2].length :=
  backend_choice_validity .cbtree 0 2 [1, 2] [3, 2] (by decide)
    (fun _ => by decide)

theorem core_inv_init : core_inv sched_core_init := by
  refine ⟨?_, ?_, ?_⟩
  · intro t ht
    exact absurd ht (List.not_mem_nil t)
  · exact Nat.le_refl 0
  · intro _
    rfl

theorem core_inv_step (s s2 : sched_core_state) (hinv : core_inv s)
    (hstep : sched_core_step s s2) : core_inv s2 := by
  obtain ⟨h1, h2, h3⟩ := hinv
  cases hstep with
  | yield_before_exec_cb t s hacq =>
    refine ⟨?_, ?_, ?_⟩
    · intro u hu
      rcases List.mem_cons.mp hu with rfl | hu
      · rfl
      · rcases hacq with hfree | hself
        · rw [h1 u hu] at hfree
          exact absurd hfree (by simp)
        · rw [h1 u hu] at hself
          simp only [Option.some.injEq] at hself
          rw [hself]
    · simpa using Nat.succ_le_succ h2
    · intro hnone
      exact absurd hnone (by simp)
  | yield_after_exec_cb t s rest hhold hstk =>
    have hlen : rest.length + 1 ≤ s.lock.depth := by
      have := h2
      rw [hstk] at this
      simpa using this
    refine ⟨?_, ?_, ?_⟩
    · intro u hu
      have hut : u = t := by
        have := h1 u (by rw [hstk]; exact List.mem_cons_of_mem t hu)
        rw [hhold] at this
        simpa using this.symm
      by_cases hd : s.lock.depth ≤ 1
      · have : rest = [] := by
          have : rest.length = 0 := by omega
          exact List.eq_nil_of_length_eq_zero this
        rw [this] at hu
        exact absurd hu (List.not_mem_nil u)
      · simp only [if_neg hd]
        rw [hut]
    · simp only
      omega
    · intro hnone
      by_cases hd : s.lock.depth ≤ 1
      · simp only
        omega
      · rw [if_neg hd] at hnone
        exact absurd hnone (by simp)
  | yield_non_cb t s hacq => exact ⟨h1, h2, h3⟩

theorem sched_core_reachable_inv (s : sched_core_state)
    (h : sched_core_reachable s) : core_inv s := by
  induction h with
  | init => exact core_inv_init
  | step hr hstep ih => exact core_inv_step _ _ ih hstep

/-- C1: in every facade state reachable by thread yields, each thread inside
a callback (its BEFORE_EXEC_CB yield not yet matched by AFTER_EXEC_CB) holds
the reentrant core lock, and hence at most one thread across the whole
process is executing a callback at any moment. -/
theorem cb_mutual_exclusion (s : sched_core_state)
    (hr : sched_core_reachable s) :
    (∀ t, t ∈ s.cb_stack → s.lock.holder = some t) ∧
    (∀ t u, t ∈ s.cb_stack → u ∈ s.cb_stack → t = u) := by
  obtain ⟨h1, _, _⟩ := sched_core_reachable_inv s hr
  refine ⟨h1, ?_⟩
  intro t u ht hu
  have := (h1 t ht).symm.trans (h1 u hu)
  simpa using this

/-- C1 witness: after thread 0 yields at BEFORE_EXEC_CB, the reachable state
has thread 0 as the lock holder while it executes its callback. -/
theorem cb_mutual_exclusion_witness :
    core_state_example.lock.holder = some 0 := by
  have hr : sched_core_reachable core_state_example := by
    have h0 :=
      sched_core_step.yield_before_exec_cb 0 sched_core_init (Or.inl rfl)
    exact sched_core_reachable.step sched_core_reachable.init h0
  exact (cb_mutual_exclusion core_state_example hr).1 0
    (by simp [core_state_example])

theorem write_callbacks_loop_shape (l : List uv_write_t) (n : Nat) :
    ∀ x ∈ (write_callbacks_loop l n).2, ∃ i e, x = cb_event.write_cb i e := by
  induction l generalizing n with
  | nil =>
    intro x hx
    simp [write_callbacks_loop] at hx
  | cons r rs ih =>
    intro x hx
    simp only [write_callbacks_loop, List.mem_append] at hx
    rcases hx with hx1 | hx2
    · by_cases hc : r.cb = true
      · rw [if_pos hc] at hx1
        simp only [List.mem_singleton] at hx1
        exact ⟨r.id, r.error, hx1⟩
      · rw [if_neg hc] at hx1
        exact absurd hx1 (List.not_mem_nil x)
    · exact ih _ x hx2

theorem write_callbacks_loop_mem (l : List uv_write_t) (n : Nat)
    (r : uv_write_t) (hr : r ∈ l) (hcb : r.cb = true) :
    cb_event.write_cb r.id r.error ∈ (write_callbacks_loop l n).2 := by
  induction l generalizing n with
  | nil => exact absurd hr (List.not_mem_nil r)
  | cons a rs ih =>
    rcases List.mem_cons.mp hr with rfl | hmem
    · simp [write_callbacks_loop, hcb]
    · simp only [write_callbacks_loop, List.mem_append]
      exact Or.inr (ih _ hmem)

theorem write_callbacks_loop_size (l : List uv_write_t) (k : Nat) :
    (write_callbacks_loop l (queue_size_sum l + k)).1 = k := by
  induction l generalizing k with
  | nil => simp [write_callbacks_loop, queue_size_sum]
  | cons r rs ih =>
    by_cases hb : r.bufs.isSome
    · have hq : queue_size_sum (r :: rs) =
          uv__write_req_size r + queue_size_sum rs := by
        simp [queue_size_sum, hb]
      rw [hq]
      simp only [write_callbacks_loop, if_pos hb]
      have harith : uv__write_req_size r + queue_size_sum rs + k -
          uv__write_req_size r = queue_size_sum rs + k := by omega
      rw [harith]
      exact ih k
    · have hq : queue_size_sum (r :: rs) = queue_size_sum rs := by
        simp [queue_size_sum, hb]
      rw [hq]
      simp only [write_callbacks_loop, if_neg hb]
      exact ih k

theorem queue_size_sum_append (a b : List uv_write_t) :
    queue_size_sum (a ++ b) = queue_size_sum a + queue_size_sum b := by
  simp [queue_size_sum]

theorem queue_size_sum_set_error (l : List uv_write_t) (e : Int) :
    queue_size_sum (l.map (fun r => { r with error := e })) =
      queue_size_sum l := by
  induction l with
  | nil => rfl
  | cons r rs ih =>
    simp only [List.map_cons, queue_size_sum, List.sum_cons] at ih ⊢
    rw [ih]
    rfl

theorem count_zero_of_write_shape (l : List cb_event)
    (hshape : ∀ x ∈ l, ∃ i e, x = cb_event.write_cb i e) (r : Nat) (st : Int) :
    l.count (cb_event.connect_cb r st) = 0 ∧
    l.count (cb_event.shutdown_cb r st) = 0 := by
  constructor
  · rw [List.count_eq_zero]
    intro hmem
    obtain ⟨i, e, hx⟩ := hshape _ hmem
    exact absurd hx (by simp)
  · rw [List.count_eq_zero]
    intro hmem
    obtain ⟨i, e, hx⟩ := hshape _ hmem
    exact absurd hx (by simp)

theorem uv__stream_destroy_eq (s : uv_stream_t) :
    uv__stream_destroy s =
      ({ connect_req := none
         shutdown_req := none
         write_queue := []
         write_completed_queue := []
         write_queue_size :=
           (write_callbacks_loop
             (s.write_completed_queue ++
               s.write_queue.map (fun r => { r with error := -ECANCELED }))
             s.write_queue_size).1 },
       (match s.connect_req with
        | some r => [cb_event.connect_cb r (-ECANCELED)]
        | none => []) ++
       (write_callbacks_loop
         (s.write_completed_queue ++
           s.write_queue.map (fun r => { r with error := -ECANCELED }))
         s.write_queue_size).2 ++
       (match s.shutdown_req with
        | some r => [cb_event.shutdown_cb r (-ECANCELED)]
        | none => [])) := rfl

/-- C10: when a stream is destroyed, a pending connect request and a pending
shutdown request each have their callback invoked exactly once with status
-ECANCELED (routed through the callback interposition with the UV_CONNECT_CB
and UV_SHUTDOWN_CB tags), the corresponding request pointer on the stream is
cleared to NULL, and every queued write request is completed with error
-ECANCELED, leaving the stream's write queue size equal to zero.  The
hypothesis is libuv's accounting invariant: `write_queue_size` is the number
of unwritten bytes of the requests in the write queue and the error-state
requests in the completed queue (stream.c lines 1551-1554). -/
theorem stream_destroy_cancels (s : uv_stream_t)
    (hsize : s.write_queue_size = stream_pending_size s) :
    (∀ rc, s.connect_req = some rc →
      ((uv__stream_destroy s).2.count (cb_event.connect_cb rc (-ECANCELED)) = 1 ∧
       (uv__stream_destroy s).1.connect_req = none)) ∧
    (∀ rs2, s.shutdown_req = some rs2 →
      ((uv__stream_destroy s).2.count (cb_event.shutdown_cb rs2 (-ECANCELED)) = 1 ∧
       (uv__stream_destroy s).1.shutdown_req = none)) ∧
    (∀ r ∈ s.write_queue, r.cb = true →
      cb_event.write_cb r.id (-ECANCELED) ∈ (uv__stream_destroy s).2) ∧
    (uv__stream_destroy s).1.write_queue = [] ∧
    (uv__stream_destroy s).1.write_completed_queue = [] ∧
    (uv__stream_destroy s).1.write_queue_size = 0 := by
  rw [uv__stream_destroy_eq]
  set l := s.write_completed_queue ++
    s.write_queue.map (fun r => { r with error := -ECANCELED }) with hl
  have hshape := write_callbacks_loop_shape l s.write_queue_size
  refine ⟨?_, ?_, ?_, rfl, rfl, ?_⟩
  · intro rc hc
    rw [hc]
    have hz := count_zero_of_write_shape _ hshape rc (-ECANCELED)
    refine ⟨?_, rfl⟩
    have hone : [cb_event.connect_cb rc (-ECANCELED)].count
        (cb_event.connect_cb rc (-ECANCELED)) = 1 := by simp
    have hshut0 : (match s.shutdown_req with
        | some r => [cb_event.shutdown_cb r (-ECANCELED)]
        | none => ([] : List cb_event)).count
          (cb_event.connect_cb rc (-ECANCELED)) = 0 := by
      cases s.shutdown_req with
      | none => rfl
      | some r2 =>
        rw [List.count_eq_zero]
        intro hmem
        simp at hmem
    rw [List.count_append, List.count_append, hone, hz.1, hshut0]
  · intro rs2 hs
    rw [hs]
    have hz := count_zero_of_write_shape _ hshape rs2 (-ECANCELED)
    refine ⟨?_, rfl⟩
    have hone : [cb_event.shutdown_cb rs2 (-ECANCELED)].count
        (cb_event.shutdown_cb rs2 (-ECANCELED)) = 1 := by simp
    have hconn0 : (match s.connect_req with
        | some r => [cb_event.connect_cb r (-ECANCELED)]
        | none => ([] : List cb_event)).count
          (cb_event.shutdown_cb rs2 (-ECANCELED)) = 0 := by
      cases s.connect_req with
      | none => rfl
      | some r2 =>
        rw [List.count_eq_zero]
        intro hmem
        simp at hmem
    rw [List.count_append, List.count_append, hone, hz.2, hconn0]
  · intro r hr hcb
    have hmem2 : ({ r with error := -ECANCELED } : uv_write_t) ∈ l := by
      rw [hl]
      exact List.mem_append_right _ (List.mem_map_of_mem _ hr)
    have hev := write_callbacks_loop_mem l s.write_queue_size
      ({ r with error := -ECANCELED }) hmem2 hcb
    exact List.mem_append_left _ (List.mem_append_right _ hev)
  · have hsum : s.write_queue_size = queue_size_sum l + 0 := by
      rw [Nat.add_zero, hl, queue_size_sum_append, queue_size_sum_set_error]
      rw [hsize]
      simp only [stream_pending_size]
      omega
    rw [hsum]
    exact write_callbacks_loop_size l 0

/-- C10 witness: a stream with a pending connect, a pending shutdown, and one
queued five-byte write satisfies the size invariant, and destruction leaves a
zero write-queue size with both request pointers cleared. -/
theorem stream_destroy_cancels_witness :
    stream_example.write_queue_size = stream_pending_size stream_example ∧
    (uv__stream_destroy stream_example).1.write_queue_size = 0 ∧
    (uv__stream_destroy stream_example).1.connect_req = none ∧
    (uv__stream_destroy stream_example).1.shutdown_req = none := by
  have h := stream_destroy_cancels stream_example (by decide)
  exact ⟨by decide, h.2.2.2.2.2, (h.1 1 rfl).2, (h.2.1 2 rfl).2⟩
